import Mathlib

/-!
Verification of the IAPWS water-viscosity evaluator
(`FEM/Material/Fluid/Viscosity/WaterViscosityIAPWS.cpp`).

The evaluator is embedded shallowly over the real numbers: the fixed
coefficient tables become functions `Hi`, `Hij`; the accumulation loops
become explicit recursions / finite sums; the three entry points
`getValue`, `getdValuedT`, `getdValuedRho` become real-valued functions.
-/

noncomputable section

/-- Coefficient table `Hi` of the dilute-gas polynomial
(`static const double Hi[4]`). Out-of-range indices give 0. -/
def Hi (i : ℕ) : ℝ :=
  [1.67752, 2.20462, 0.6366564, -0.241605].getD i 0

/-- The rows of the coefficient table `Hij` of the residual double series
(`static const double Hij[6][7]`). -/
def HijRows : List (List ℝ) :=
  [[0.520094, 0.222531, -0.281378, 0.161913, -0.0325372, 0, 0],
   [0.0850895, 0.999115, -0.906851, 0.257399, 0, 0, 0],
   [-1.08374, 1.88797, -0.772479, 0, 0, 0, 0],
   [-0.289555, 1.26613, -0.489837, 0, 0.0698452, 0, -0.00435673],
   [0, 0, -0.25704, 0, 0, 0.00872102, 0],
   [0, 0.120573, 0, 0, 0, 0, -0.000593264]]

/-- Entry `Hij[i][j]` of the residual coefficient table; out-of-range
indices give 0. -/
def Hij (i j : ℕ) : ℝ := (HijRows.getD i []).getD j 0

/-- State of the `computeBarMu0Factor` loop after `n` iterations:
first component is `sum_val`, second is the running power `barT_i`. -/
def barMu0Aux (barT : ℝ) : Nat → ℝ × ℝ
  | 0 => (0, 1)
  | n + 1 =>
      ((barMu0Aux barT n).1 + Hi n / (barMu0Aux barT n).2,
       (barMu0Aux barT n).2 * barT)

/-- Function `computeBarMu0Factor`: the four-iteration loop summing `Hi[i] / barT^i`. -/
def computeBarMu0Factor (barT : ℝ) : ℝ := (barMu0Aux barT 4).1

/-- Value of entry `n` of a series-factor vector with multiplier `fac`:
entry 0 is 1 and entry `n+1` is entry `n` times `fac`, exactly the loop
`series_factor[i] = series_factor[i-1] * fac`. -/
def seriesFacAux (fac : ℝ) : Nat → ℝ
  | 0 => 1
  | n + 1 => seriesFacAux fac n * fac

/-- Function `computeSeriesFactorTForMu1`: length-6 vector built iteratively from the
base `1 / barT - 1`. -/
def computeSeriesFactorTForMu1 (barT : ℝ) : List ℝ :=
  (List.range 6).map (seriesFacAux (1 / barT - 1))

/-- Function `computeSeriesFactorRhoForMu1`: length-7 vector built iteratively from the
base `bar_rho - 1`. -/
def computeSeriesFactorRhoForMu1 (bar_rho : ℝ) : List ℝ :=
  (List.range 7).map (seriesFacAux (bar_rho - 1))

/-- Function `computeBarMu1Factor`: the double accumulation loop
`sum_val += series_factorT[i] * (Σ_j Hij[i][j] * series_factorRho[j])`. -/
def computeBarMu1Factor (sT sRho : List ℝ) : ℝ :=
  ∑ i in Finset.range 6, sT.getD i 0 * (∑ j in Finset.range 7, Hij i j * sRho.getD j 0)

/-- Entry point `WaterViscosityIAPWS::getValue`. -/
def getValue (T rho : ℝ) : ℝ :=
  let bar_T := T / 647.096
  let bar_rho := rho / 322.0
  let mu0 := 100 * Real.sqrt bar_T / computeBarMu0Factor bar_T
  let mu1 := Real.exp (bar_rho *
    computeBarMu1Factor (computeSeriesFactorTForMu1 bar_T)
      (computeSeriesFactorRhoForMu1 bar_rho))
  mu0 * mu1 * 1e-6

/-- Function `computedBarMu_dbarT`: the analytic derivative of the reduced viscosity
with respect to `barT`.  The loop `for (i = 1; i < 4)` is written as a sum
over `k = i - 1 ∈ range 3`, and `for (i = 1; i < 6)` as a sum over
`k = i - 1 ∈ range 5`, mirroring the running-power bookkeeping of the code. -/
def computedBarMu_dbarT (barT bar_rho : ℝ) : ℝ :=
  let mu0_factor := computeBarMu0Factor barT
  let sqrt_barT := Real.sqrt barT
  let dmu0_factor_dbarT :=
    -∑ k in Finset.range 3, ((k + 1 : ℕ) : ℝ) * Hi (k + 1) / barT ^ (k + 2)
  let dbar_mu0_dbarT := 50 / (mu0_factor * sqrt_barT) -
    100 * sqrt_barT * dmu0_factor_dbarT / (mu0_factor * mu0_factor)
  let series_factorT := computeSeriesFactorTForMu1 barT
  let series_factorRho := computeSeriesFactorRhoForMu1 bar_rho
  let dmu1_factor_dbarT :=
    -∑ k in Finset.range 5, ((k + 1 : ℕ) : ℝ) * series_factorT.getD k 0 *
      (∑ j in Finset.range 7, Hij (k + 1) j * series_factorRho.getD j 0) / (barT * barT)
  let mu1_factor := computeBarMu1Factor series_factorT series_factorRho
  let dbar_mu1_dbarT := bar_rho * Real.exp (bar_rho * mu1_factor) * dmu1_factor_dbarT
  dbar_mu0_dbarT * Real.exp (bar_rho * mu1_factor) +
    dbar_mu1_dbarT * 100 * sqrt_barT / mu0_factor

/-- Function `computedBarMu_dbarRho`: the analytic derivative of the reduced viscosity
with respect to `bar_rho`.  The inner loop `for (j = 1; j < 7)` is written as
a sum over `k = j - 1 ∈ range 6`. -/
def computedBarMu_dbarRho (barT bar_rho : ℝ) : ℝ :=
  let series_factorT := computeSeriesFactorTForMu1 barT
  let series_factorRho := computeSeriesFactorRhoForMu1 bar_rho
  let dmu1_factor_dbar_rho :=
    ∑ i in Finset.range 6, series_factorT.getD i 0 *
      (∑ k in Finset.range 6, ((k + 1 : ℕ) : ℝ) * Hij i (k + 1) * series_factorRho.getD k 0)
  let mu0 := 100 * Real.sqrt barT / computeBarMu0Factor barT
  let mu1_factor := computeBarMu1Factor series_factorT series_factorRho
  mu0 * Real.exp (bar_rho * mu1_factor) * (mu1_factor + bar_rho * dmu1_factor_dbar_rho)

/-- Entry point `WaterViscosityIAPWS::getdValuedT`. -/
def getdValuedT (T rho : ℝ) : ℝ :=
  1e-6 * computedBarMu_dbarT (T / 647.096) (rho / 322.0) / 647.096

/-- Entry point `WaterViscosityIAPWS::getdValuedRho`. -/
def getdValuedRho (T rho : ℝ) : ℝ :=
  1e-6 * computedBarMu_dbarRho (T / 647.096) (rho / 322.0) / 322.0

/-! ### Closed-form re-expression lemmas -/

/-- The dilute-gas loop computes the polynomial `Σ Hi[i] / barT^i`. -/
lemma computeBarMu0Factor_eq (v : ℝ) :
    computeBarMu0Factor v =
      1.67752 + 2.20462 / v + 0.6366564 / v ^ 2 + -0.241605 / v ^ 3 := by
  have h : computeBarMu0Factor v =
      0 + Hi 0 / 1 + Hi 1 / (1 * v) + Hi 2 / (1 * v * v) + Hi 3 / (1 * v * v * v) := rfl
  rw [h]
  show 0 + 1.67752 / 1 + 2.20462 / (1 * v) + 0.6366564 / (1 * v * v) +
      -0.241605 / (1 * v * v * v) = _
  ring

/-- Each series-factor entry is the corresponding power of the base. -/
lemma seriesFacAux_eq_pow (fac : ℝ) (n : Nat) : seriesFacAux fac n = fac ^ n := by
  induction n with
  | zero => rfl
  | succ n ih => rw [seriesFacAux, ih, pow_succ]

/-- The temperature series-factor vector, written out. -/
lemma computeSeriesFactorTForMu1_eq (v : ℝ) :
    computeSeriesFactorTForMu1 v =
      [1, (1 / v - 1), (1 / v - 1) ^ 2, (1 / v - 1) ^ 3,
       (1 / v - 1) ^ 4, (1 / v - 1) ^ 5] := by
  show (List.range 6).map (seriesFacAux (1 / v - 1)) = _
  rw [show List.range 6 = [0, 1, 2, 3, 4, 5] from rfl]
  simp [seriesFacAux_eq_pow]

/-- The density series-factor vector, written out. -/
lemma computeSeriesFactorRhoForMu1_eq (r : ℝ) :
    computeSeriesFactorRhoForMu1 r =
      [1, (r - 1), (r - 1) ^ 2, (r - 1) ^ 3, (r - 1) ^ 4, (r - 1) ^ 5, (r - 1) ^ 6] := by
  show (List.range 7).map (seriesFacAux (r - 1)) = _
  rw [show List.range 7 = [0, 1, 2, 3, 4, 5, 6] from rfl]
  simp [seriesFacAux_eq_pow]

/-! ### Specification-side definitions

These follow the wording of the specification (sections 4.2 to 4.6) and are
compared with the code-derived definitions above. -/

/-- Spec 4.2: `f0(T̄) = Σ_{i=0}^{3} H[i] / T̄^i`. -/
def f0Spec (barT : ℝ) : ℝ := ∑ i in Finset.range 4, Hi i / barT ^ i

/-- Spec 4.3: inner residual sum `Σ_{j=0}^{6} H_ij[i][j] · (ρ̄−1)^j`. -/
def gRho (i : ℕ) (barRho : ℝ) : ℝ :=
  ∑ j in Finset.range 7, Hij i j * (barRho - 1) ^ j

/-- Spec 4.3: residual factor
`f1(T̄, ρ̄) = Σ_{i=0}^{5} ((1/T̄)−1)^i · Σ_{j=0}^{6} H_ij[i][j] · (ρ̄−1)^j`. -/
def f1Spec (barT barRho : ℝ) : ℝ :=
  ∑ i in Finset.range 6, (1 / barT - 1) ^ i * gRho i barRho

/-- Spec 4.6: `viscosity(T, ρ) = μ0(T̄) · exp(ρ̄·f1(T̄,ρ̄)) · μ_ref` with
`μ0(T̄) = 100·√T̄ / f0(T̄)`. -/
def muSpec (T rho : ℝ) : ℝ :=
  100 * Real.sqrt (T / 647.096) / f0Spec (T / 647.096) *
    Real.exp (rho / 322.0 * f1Spec (T / 647.096) (rho / 322.0)) * 1e-6

/-- Spec 4.2: `df0/dT̄ = −Σ_{i=1}^{3} i·H[i]/T̄^{i+1}`. -/
def df0Spec (barT : ℝ) : ℝ :=
  -∑ i in Finset.Icc (1 : ℕ) 3, (i : ℝ) * Hi i / barT ^ (i + 1)

/-- Spec 4.2: `dμ0/dT̄ = 50/(f0·√T̄) − 100·√T̄·(df0/dT̄)/f0²`. -/
def dmu0Spec (barT : ℝ) : ℝ :=
  50 / (f0Spec barT * Real.sqrt barT) -
    100 * Real.sqrt barT * df0Spec barT / f0Spec barT ^ 2

/-- Spec 4.3: `∂f1/∂T̄ = −(1/T̄²) · Σ_{i=1}^{5} i · S_T[i−1] · (Σ_j H_ij[i][j]·S_ρ[j])`. -/
def df1dTSpec (barT barRho : ℝ) : ℝ :=
  -(1 / barT ^ 2) *
    ∑ i in Finset.Icc (1 : ℕ) 5, (i : ℝ) * (1 / barT - 1) ^ (i - 1) * gRho i barRho

/-- Spec 4.3: `∂f1/∂ρ̄ = Σ_{i=0}^{5} S_T[i] · Σ_{j=1}^{6} j · H_ij[i][j] · S_ρ[j−1]`. -/
def df1dRhoSpec (barT barRho : ℝ) : ℝ :=
  ∑ i in Finset.range 6, (1 / barT - 1) ^ i *
    ∑ j in Finset.Icc (1 : ℕ) 6, (j : ℝ) * Hij i j * (barRho - 1) ^ (j - 1)

/-- Spec 4.4/4.6: `d_viscosity_dT(T, ρ) = μ_ref · (dμ0/dT̄·μ1 + dμ1/dT̄·μ0) / T_ref`
with `dμ1/dT̄ = ρ̄·exp(ρ̄·f1)·∂f1/∂T̄` and `μ0 = 100√T̄/f0`. -/
def dmudTSpec (T rho : ℝ) : ℝ :=
  let barT := T / 647.096
  let barRho := rho / 322.0
  1e-6 * (dmu0Spec barT * Real.exp (barRho * f1Spec barT barRho) +
    barRho * Real.exp (barRho * f1Spec barT barRho) * df1dTSpec barT barRho *
      (100 * Real.sqrt barT / f0Spec barT)) / 647.096

/-- Spec 4.5/4.6: `d_viscosity_dRho(T, ρ) = μ_ref · μ0 · exp(ρ̄·f1) · (f1 + ρ̄·∂f1/∂ρ̄) / ρ_ref`. -/
def dmudRhoSpec (T rho : ℝ) : ℝ :=
  let barT := T / 647.096
  let barRho := rho / 322.0
  1e-6 * (100 * Real.sqrt barT / f0Spec barT *
    Real.exp (barRho * f1Spec barT barRho) *
    (f1Spec barT barRho + barRho * df1dRhoSpec barT barRho)) / 322.0

/-! ### Translation lemmas between the loop forms and the closed forms -/

/-- Sum over the index set `{1, 2, 3}` written out. -/
lemma sum_Icc_one_three (g : ℕ → ℝ) :
    ∑ i in Finset.Icc (1 : ℕ) 3, g i = g 1 + g 2 + g 3 := by
  rw [show Finset.Icc (1 : ℕ) 3 = {1, 2, 3} by decide]
  rw [Finset.sum_insert (by decide), Finset.sum_insert (by decide),
    Finset.sum_singleton]
  ring

/-- Sum over the index set `{1, ..., 5}` written out. -/
lemma sum_Icc_one_five (g : ℕ → ℝ) :
    ∑ i in Finset.Icc (1 : ℕ) 5, g i = g 1 + g 2 + g 3 + g 4 + g 5 := by
  rw [show Finset.Icc (1 : ℕ) 5 = {1, 2, 3, 4, 5} by decide]
  rw [Finset.sum_insert (by decide), Finset.sum_insert (by decide),
    Finset.sum_insert (by decide), Finset.sum_insert (by decide),
    Finset.sum_singleton]
  ring

/-- Sum over the index set `{1, ..., 6}` written out. -/
lemma sum_Icc_one_six (g : ℕ → ℝ) :
    ∑ i in Finset.Icc (1 : ℕ) 6, g i = g 1 + g 2 + g 3 + g 4 + g 5 + g 6 := by
  rw [show Finset.Icc (1 : ℕ) 6 = {1, 2, 3, 4, 5, 6} by decide]
  rw [Finset.sum_insert (by decide), Finset.sum_insert (by decide),
    Finset.sum_insert (by decide), Finset.sum_insert (by decide),
    Finset.sum_insert (by decide), Finset.sum_singleton]
  ring

/-- The loop polynomial equals the spec polynomial `f0`. -/
lemma f0Spec_eq_code (v : ℝ) : f0Spec v = computeBarMu0Factor v := by
  rw [computeBarMu0Factor_eq]
  simp [f0Spec, Finset.sum_range_succ, Hi]

/-- The inner residual loop over the density series vector equals `gRho`. -/
lemma innerRho_eq (i : ℕ) (r : ℝ) :
    (∑ j in Finset.range 7, Hij i j * (computeSeriesFactorRhoForMu1 r).getD j 0) =
      gRho i r := by
  rw [computeSeriesFactorRhoForMu1_eq]
  simp [gRho, Finset.sum_range_succ, List.getD]

/-- The reindexed derivative loop over the density series vector equals the
spec sum `Σ_{j=1}^{6} j·H_ij[i][j]·(ρ̄−1)^{j−1}`. -/
lemma innerRhoDeriv_eq (i : ℕ) (r : ℝ) :
    (∑ k in Finset.range 6, ((k + 1 : ℕ) : ℝ) * Hij i (k + 1) *
        (computeSeriesFactorRhoForMu1 r).getD k 0) =
      ∑ j in Finset.Icc (1 : ℕ) 6, (j : ℝ) * Hij i j * (r - 1) ^ (j - 1) := by
  rw [computeSeriesFactorRhoForMu1_eq, sum_Icc_one_six]
  simp [Finset.sum_range_succ, List.getD]
  norm_num

/-- The double residual loop equals the spec residual factor `f1`. -/
lemma computeBarMu1Factor_eq (v r : ℝ) :
    computeBarMu1Factor (computeSeriesFactorTForMu1 v)
      (computeSeriesFactorRhoForMu1 r) = f1Spec v r := by
  unfold computeBarMu1Factor
  simp only [innerRho_eq]
  rw [computeSeriesFactorTForMu1_eq]
  simp [f1Spec, Finset.sum_range_succ, List.getD]

/-- The reindexed `dmu0_factor_dbarT` loop equals the spec sum `df0/dT̄`. -/
lemma df0_loop_eq (v : ℝ) :
    -∑ k in Finset.range 3, ((k + 1 : ℕ) : ℝ) * Hi (k + 1) / v ^ (k + 2) =
      df0Spec v := by
  rw [df0Spec, sum_Icc_one_three]
  simp [Finset.sum_range_succ, Hi]
  norm_num

/-- The reindexed `dmu1_factor_dbarT` loop equals the spec sum `∂f1/∂T̄`
multiplied out over the series vectors. -/
lemma df1dT_loop_eq (v r : ℝ) :
    -∑ k in Finset.range 5, ((k + 1 : ℕ) : ℝ) *
        (computeSeriesFactorTForMu1 v).getD k 0 *
        (∑ j in Finset.range 7, Hij (k + 1) j *
          (computeSeriesFactorRhoForMu1 r).getD j 0) / (v * v) =
      df1dTSpec v r := by
  simp only [innerRho_eq]
  rw [computeSeriesFactorTForMu1_eq, df1dTSpec, sum_Icc_one_five]
  simp [Finset.sum_range_succ, List.getD]
  ring

/-- The reindexed `dmu1_factor_dbar_rho` loop equals the spec sum `∂f1/∂ρ̄`. -/
lemma df1dRho_loop_eq (v r : ℝ) :
    ∑ i in Finset.range 6, (computeSeriesFactorTForMu1 v).getD i 0 *
        (∑ k in Finset.range 6, ((k + 1 : ℕ) : ℝ) * Hij i (k + 1) *
          (computeSeriesFactorRhoForMu1 r).getD k 0) =
      df1dRhoSpec v r := by
  simp only [innerRhoDeriv_eq]
  rw [computeSeriesFactorTForMu1_eq, df1dRhoSpec]
  simp [Finset.sum_range_succ, List.getD]

/-! ### Claim theorems -/

/-- Claim C4: at the critical point T = 647.096 K, rho = 322 kg/m³ the
series-factor vectors collapse to `[1,0,0,0,0,0]` and `[1,0,0,0,0,0,0]`,
the residual factor equals `Hij[0][0] = 0.520094`, and `getValue` equals
`100 / (H[0]+H[1]+H[2]+H[3]) · exp(0.520094) · 1e-6`. -/
theorem critical_point_eval :
    computeSeriesFactorTForMu1 (647.096 / 647.096) = [1, 0, 0, 0, 0, 0] ∧
    computeSeriesFactorRhoForMu1 (322.0 / 322.0) = [1, 0, 0, 0, 0, 0, 0] ∧
    computeBarMu1Factor (computeSeriesFactorTForMu1 (647.096 / 647.096))
      (computeSeriesFactorRhoForMu1 (322.0 / 322.0)) = 0.520094 ∧
    Hij 0 0 = 0.520094 ∧
    getValue 647.096 322.0 =
      100 / (Hi 0 + Hi 1 + Hi 2 + Hi 3) * Real.exp 0.520094 * 1e-6 := by
  have h1 : (647.096 : ℝ) / 647.096 = 1 := by norm_num
  have h2 : (322.0 : ℝ) / 322.0 = 1 := by norm_num
  have hM : computeBarMu1Factor (computeSeriesFactorTForMu1 1)
      (computeSeriesFactorRhoForMu1 1) = 0.520094 := by
    rw [computeBarMu1Factor_eq]
    norm_num [f1Spec, gRho, Hij, HijRows, Finset.sum_range_succ, List.getD]
  have hS : computeBarMu0Factor 1 = Hi 0 + Hi 1 + Hi 2 + Hi 3 := by
    rw [computeBarMu0Factor_eq]; norm_num [Hi]
  refine ⟨?_, ?_, ?_, rfl, ?_⟩
  · rw [h1, computeSeriesFactorTForMu1_eq]; norm_num
  · rw [h2, computeSeriesFactorRhoForMu1_eq]; norm_num
  · rw [h1, h2, hM]
  · simp only [getValue]
    rw [h1, h2, Real.sqrt_one, hM, hS]
    norm_num

/-- Claim C5 (counterexample): the sum of the four dilute-gas coefficients is
not 4.2771814 as the spec states. -/
theorem dilute_sum_counterexample :
    Hi 0 + Hi 1 + Hi 2 + Hi 3 ≠ 4.2771814 ∧
    computeBarMu0Factor 1 ≠ 4.2771814 := by
  constructor
  · norm_num [Hi]
  · rw [computeBarMu0Factor_eq]; norm_num

/-- Claim C5 (amended): the sum of the four dilute-gas coefficients, which is
`f0` at the critical point, equals exactly 4.2771914, and `μ0` at the
critical point equals `100 / 4.2771914`. -/
theorem dilute_sum_value :
    Hi 0 + Hi 1 + Hi 2 + Hi 3 = 4.2771914 ∧
    computeBarMu0Factor 1 = 4.2771914 ∧
    100 * Real.sqrt 1 / computeBarMu0Factor 1 = 100 / 4.2771914 := by
  have h : computeBarMu0Factor 1 = 4.2771914 := by
    rw [computeBarMu0Factor_eq]; norm_num
  refine ⟨by norm_num [Hi], h, ?_⟩
  rw [h, Real.sqrt_one]; norm_num

/-- Claim C6: for T̄ ≠ 0 the temperature series vector is the length-6 list of
powers of `1/T̄ − 1`, the density series vector is the length-7 list of powers
of `ρ̄ − 1`, and entry 0 of each is exactly 1. -/
theorem series_factor_entries (v r : ℝ) (hv : v ≠ 0) :
    computeSeriesFactorTForMu1 v =
      [(1 / v - 1) ^ 0, (1 / v - 1) ^ 1, (1 / v - 1) ^ 2, (1 / v - 1) ^ 3,
       (1 / v - 1) ^ 4, (1 / v - 1) ^ 5] ∧
    computeSeriesFactorRhoForMu1 r =
      [(r - 1) ^ 0, (r - 1) ^ 1, (r - 1) ^ 2, (r - 1) ^ 3, (r - 1) ^ 4,
       (r - 1) ^ 5, (r - 1) ^ 6] ∧
    (computeSeriesFactorTForMu1 v).length = 6 ∧
    (computeSeriesFactorRhoForMu1 r).length = 7 ∧
    (computeSeriesFactorTForMu1 v).getD 0 0 = 1 ∧
    (computeSeriesFactorRhoForMu1 r).getD 0 0 = 1 := by
  refine ⟨?_, ?_, ?_, ?_, ?_, ?_⟩ <;>
    simp [computeSeriesFactorTForMu1_eq, computeSeriesFactorRhoForMu1_eq,
      List.getD]

/-- Witness for Claim C6 at T̄ = 2, ρ̄ = 3. -/
theorem series_factor_entries_witness :
    (2 : ℝ) ≠ 0 ∧ (computeSeriesFactorTForMu1 (2 : ℝ)).getD 0 0 = 1 :=
  ⟨by norm_num, (series_factor_entries 2 3 (by norm_num)).2.2.2.2.1⟩

/-- A sequence of evaluator calls: the outputs of applying `f` to each input
pair in order.  Used to express that calls share no state. -/
def runCalls (f : ℝ → ℝ → ℝ) (calls : List (ℝ × ℝ)) : List ℝ :=
  calls.map fun p => f p.1 p.2

/-- Claim C9: all three entry points are deterministic and stateless — the
output of a call depends only on its own input pair, not on any preceding
call history. -/
theorem evaluator_stateless (pre₁ pre₂ : List (ℝ × ℝ)) (T rho : ℝ) :
    (runCalls getValue (pre₁ ++ [(T, rho)])).getLast? =
      (runCalls getValue (pre₂ ++ [(T, rho)])).getLast? ∧
    (runCalls getdValuedT (pre₁ ++ [(T, rho)])).getLast? =
      (runCalls getdValuedT (pre₂ ++ [(T, rho)])).getLast? ∧
    (runCalls getdValuedRho (pre₁ ++ [(T, rho)])).getLast? =
      (runCalls getdValuedRho (pre₂ ++ [(T, rho)])).getLast? := by
  refine ⟨?_, ?_, ?_⟩ <;> simp [runCalls]

/-- At zero density the exponent `ρ̄ · f1` vanishes, leaving the dilute-gas
term alone. -/
lemma getValue_zero (T : ℝ) :
    getValue T 0 =
      100 * Real.sqrt (T / 647.096) / computeBarMu0Factor (T / 647.096) * 1e-6 := by
  simp only [getValue]
  norm_num

/-- Claim C10: at zero density the residual multiplier is exactly 1, so
`getValue T 0` is the pure dilute-gas viscosity for every T. -/
theorem getValue_zero_density (T : ℝ) :
    getValue T 0 = 100 * Real.sqrt (T / 647.096) / f0Spec (T / 647.096) * 1e-6 := by
  rw [getValue_zero, f0Spec_eq_code]

/-- The dilute-gas polynomial written in the reciprocal variable. -/
lemma computeBarMu0Factor_inv_form (v : ℝ) :
    computeBarMu0Factor v =
      1.67752 + 2.20462 * (1 / v) + 0.6366564 * (1 / v) ^ 2 +
        -0.241605 * (1 / v) ^ 3 := by
  rw [computeBarMu0Factor_eq]; ring

/-- The dilute-gas polynomial is positive on the moderate-temperature range. -/
lemma computeBarMu0Factor_pos (v : ℝ) (hv : 0.43 ≤ v) :
    0 < computeBarMu0Factor v := by
  have hv0 : (0 : ℝ) < v := lt_of_lt_of_le (by norm_num) hv
  have hP : 0 < 1.67752 * v ^ 3 + 2.20462 * v ^ 2 + 0.6366564 * v - 0.241605 := by
    nlinarith [mul_pos (mul_pos hv0 hv0) hv0, mul_pos hv0 hv0]
  have hE : computeBarMu0Factor v =
      (1.67752 * v ^ 3 + 2.20462 * v ^ 2 + 0.6366564 * v - 0.241605) / v ^ 3 := by
    rw [computeBarMu0Factor_eq]; field_simp; ring
  rw [hE]
  exact div_pos hP (by positivity)

/-- Strict decrease of the cubic `1.67752 + 2.20462·s + 0.6366564·s² − 0.241605·s³`
read backwards: it is strictly increasing in `s` on `(0, 2.33]`. -/
lemma dilute_cubic_strictMono (a b : ℝ) (hb0 : 0 < b) (hba : b < a)
    (ha2 : a ≤ 2.33) :
    1.67752 + 2.20462 * b + 0.6366564 * b ^ 2 + -0.241605 * b ^ 3 <
      1.67752 + 2.20462 * a + 0.6366564 * a ^ 2 + -0.241605 * a ^ 3 := by
  have ha0 : 0 < a := hb0.trans hba
  have hb2 : b ≤ 2.33 := le_of_lt (hba.trans_le ha2)
  have hq : 0 < 2.20462 + 0.6366564 * (a + b) -
      0.241605 * (a ^ 2 + a * b + b ^ 2) := by
    nlinarith [mul_nonneg (sub_nonneg.2 ha2) (sub_nonneg.2 hb2),
      mul_nonneg (add_pos ha0 hb0).le
        (by nlinarith : (0 : ℝ) ≤ 4.66 - (a + b)),
      mul_pos ha0 hb0]
  nlinarith [mul_pos (sub_pos.2 hba) hq]

/-- The dilute-gas polynomial is strictly decreasing on the
moderate-temperature range. -/
lemma computeBarMu0Factor_anti (x y : ℝ) (hx : 0.43 ≤ x) (hxy : x < y) :
    computeBarMu0Factor y < computeBarMu0Factor x := by
  have hx0 : (0 : ℝ) < x := lt_of_lt_of_le (by norm_num) hx
  have hy0 : (0 : ℝ) < y := hx0.trans hxy
  have hba : 1 / y < 1 / x := one_div_lt_one_div_of_lt hx0 hxy
  have hb0 : 0 < 1 / y := by positivity
  have ha2 : 1 / x ≤ 2.33 := by
    rw [div_le_iff hx0]; nlinarith
  rw [computeBarMu0Factor_inv_form x, computeBarMu0Factor_inv_form y]
  exact dilute_cubic_strictMono (1 / x) (1 / y) hb0 hba ha2

/-- Claim C7: in the dilute-gas-dominated region (zero density, moderate
temperatures 280 K to 800 K) viscosity strictly increases with temperature. -/
theorem getValue_strictMono_diluteRegion (T₁ T₂ : ℝ)
    (h₁ : 280 ≤ T₁) (h₂ : T₁ < T₂) (h₃ : T₂ ≤ 800) :
    getValue T₁ 0 < getValue T₂ 0 := by
  have c0 : (0 : ℝ) < 647.096 := by norm_num
  have hu₁l : 0.43 ≤ T₁ / 647.096 := by rw [le_div_iff c0]; linarith
  have hu₂u : T₂ / 647.096 ≤ 1.24 := by rw [div_le_iff c0]; linarith
  have hult : T₁ / 647.096 < T₂ / 647.096 := (div_lt_div_right c0).2 h₂
  have hT₁0 : (0 : ℝ) < T₁ := by linarith
  have hu₁0 : 0 < T₁ / 647.096 := by positivity
  have hF₁ := computeBarMu0Factor_pos _ hu₁l
  have hF₂ := computeBarMu0Factor_pos _ (le_of_lt (lt_of_le_of_lt hu₁l hult))
  have hanti := computeBarMu0Factor_anti _ _ hu₁l hult
  have hsq : Real.sqrt (T₁ / 647.096) < Real.sqrt (T₂ / 647.096) :=
    Real.sqrt_lt_sqrt hu₁0.le hult
  have hsq₁ : 0 < Real.sqrt (T₁ / 647.096) := Real.sqrt_pos.2 hu₁0
  rw [getValue_zero, getValue_zero]
  have h1e : (0 : ℝ) < 1e-6 := by norm_num
  apply mul_lt_mul_of_pos_right _ h1e
  rw [div_lt_div_iff hF₁ hF₂]
  nlinarith [mul_pos (hsq₁.trans hsq) (sub_pos.2 hanti),
    mul_pos hF₂ (sub_pos.2 hsq)]

/-- Witness for Claim C7 with T₁ = 300 K, T₂ = 400 K. -/
theorem getValue_strictMono_diluteRegion_witness :
    (280 : ℝ) ≤ 300 ∧ (300 : ℝ) < 400 ∧ (400 : ℝ) ≤ 800 ∧
      getValue 300 0 < getValue 400 0 :=
  ⟨by norm_num, by norm_num, by norm_num,
    getValue_strictMono_diluteRegion 300 400 (by norm_num) (by norm_num)
      (by norm_num)⟩

/-- Claim C3: `getValue` equals the closed-form reference expression
`100·√T̄/f0(T̄) · exp(ρ̄·f1(T̄,ρ̄)) · 1e-6`. -/
theorem getValue_eq_muSpec (T rho : ℝ) (hT : 0 < T) :
    getValue T rho = muSpec T rho := by
  simp only [getValue, muSpec, computeBarMu1Factor_eq, f0Spec_eq_code]

/-- Witness for Claim C3 at the critical point. -/
theorem getValue_eq_muSpec_witness :
    (0 : ℝ) < 647.096 ∧ getValue 647.096 322 = muSpec 647.096 322 :=
  ⟨by norm_num, getValue_eq_muSpec 647.096 322 (by norm_num)⟩

/-- Claim C8: each of the three entry points is a total function on all real
inputs, including non-physical ones: no validation or rejection occurs, and
every call produces the value of the corresponding unconditional closed-form
arithmetic expression. -/
theorem evaluator_total (T rho : ℝ) :
    getValue T rho = muSpec T rho ∧
    getdValuedT T rho = dmudTSpec T rho ∧
    getdValuedRho T rho = dmudRhoSpec T rho := by
  refine ⟨?_, ?_, ?_⟩
  · simp only [getValue, muSpec, computeBarMu1Factor_eq, f0Spec_eq_code]
  · simp only [getdValuedT, computedBarMu_dbarT, dmudTSpec, dmu0Spec,
      computeBarMu1Factor_eq, f0Spec_eq_code, df0_loop_eq, df1dT_loop_eq]
    ring
  · simp only [getdValuedRho, computedBarMu_dbarRho, dmudRhoSpec,
      computeBarMu1Factor_eq, f0Spec_eq_code, df1dRho_loop_eq]

/-- Derivative of the inner residual sum `gRho i` composed with `r ↦ r/322`. -/
lemma hasDerivAt_gRho_comp (i : ℕ) (rho : ℝ) :
    HasDerivAt (fun r : ℝ => gRho i (r / 322.0))
      (∑ j in Finset.range 7,
        Hij i j * ((j : ℝ) * (rho / 322.0 - 1) ^ (j - 1) * (1 / 322.0))) rho := by
  simp only [gRho]
  refine HasDerivAt.sum fun j _ => ?_
  have hb : HasDerivAt (fun r : ℝ => r / 322.0 - 1) (1 / 322.0) rho :=
    ((hasDerivAt_id rho).div_const 322.0).sub_const 1
  exact (hb.pow j).const_mul (Hij i j)

/-- Derivative of the residual factor `f1` in the density direction, composed
with `r ↦ r/322`. -/
lemma hasDerivAt_f1_rho (v rho : ℝ) :
    HasDerivAt (fun r : ℝ => f1Spec v (r / 322.0))
      (∑ i in Finset.range 6, (1 / v - 1) ^ i *
        ∑ j in Finset.range 7,
          Hij i j * ((j : ℝ) * (rho / 322.0 - 1) ^ (j - 1) * (1 / 322.0))) rho := by
  simp only [f1Spec]
  exact HasDerivAt.sum fun i _ => (hasDerivAt_gRho_comp i rho).const_mul ((1 / v - 1) ^ i)

/-- Claim C2: for T > 0 and rho > 0, `getdValuedRho T rho` is the derivative
of `rho ↦ getValue T rho`, and it equals
`μ_ref · μ0(T̄) · exp(ρ̄·f1) · (f1 + ρ̄·∂f1/∂ρ̄) / 322`. -/
theorem getdValuedRho_hasDerivAt (T rho : ℝ) (hT : 0 < T) (hrho : 0 < rho) :
    HasDerivAt (fun r => getValue T r) (getdValuedRho T rho) rho ∧
    getdValuedRho T rho = dmudRhoSpec T rho := by
  have hEq : (fun r => getValue T r) =
      fun r => 100 * Real.sqrt (T / 647.096) / computeBarMu0Factor (T / 647.096) *
        Real.exp ((r / 322.0) * f1Spec (T / 647.096) (r / 322.0)) * 1e-6 := by
    funext r
    simp only [getValue, computeBarMu1Factor_eq]
  have hInner : HasDerivAt
      (fun r : ℝ => (r / 322.0) * f1Spec (T / 647.096) (r / 322.0))
      (1 / 322.0 * f1Spec (T / 647.096) (rho / 322.0) + rho / 322.0 *
        ∑ i in Finset.range 6, (1 / (T / 647.096) - 1) ^ i *
          ∑ j in Finset.range 7,
            Hij i j * ((j : ℝ) * (rho / 322.0 - 1) ^ (j - 1) * (1 / 322.0))) rho :=
    ((hasDerivAt_id rho).div_const 322.0).mul (hasDerivAt_f1_rho (T / 647.096) rho)
  have hMain := ((hInner.exp.const_mul
    (100 * Real.sqrt (T / 647.096) / computeBarMu0Factor (T / 647.096))).mul_const
      (1e-6 : ℝ))
  rw [hEq]
  have hVal : getdValuedRho T rho =
      100 * Real.sqrt (T / 647.096) / computeBarMu0Factor (T / 647.096) *
        (Real.exp (rho / 322.0 * f1Spec (T / 647.096) (rho / 322.0)) *
          (1 / 322.0 * f1Spec (T / 647.096) (rho / 322.0) + rho / 322.0 *
            ∑ i in Finset.range 6, (1 / (T / 647.096) - 1) ^ i *
              ∑ j in Finset.range 7,
                Hij i j * ((j : ℝ) * (rho / 322.0 - 1) ^ (j - 1) * (1 / 322.0)))) *
        1e-6 := by
    simp only [getdValuedRho, computedBarMu_dbarRho, computeBarMu1Factor_eq,
      df1dRho_loop_eq, df1dRhoSpec, f1Spec, gRho, sum_Icc_one_six]
    simp only [Finset.sum_range_succ, Finset.sum_range_zero]
    norm_num
    ring
  constructor
  · rw [hVal]
    exact hMain
  · simp only [getdValuedRho, computedBarMu_dbarRho, dmudRhoSpec,
      computeBarMu1Factor_eq, f0Spec_eq_code, df1dRho_loop_eq]

/-- Derivative of the reduced-temperature transform `t ↦ t / 647.096`. -/
lemma hasDerivAt_barT (T : ℝ) :
    HasDerivAt (fun t : ℝ => t / 647.096) (1 / 647.096) T :=
  (hasDerivAt_id T).div_const _

/-- Derivative of the composed dilute-gas factor `t ↦ f0(t/647.096)`. -/
lemma hasDerivAt_F0comp (T : ℝ) (hne : T / 647.096 ≠ 0) :
    HasDerivAt (fun t => computeBarMu0Factor (t / 647.096))
      (df0Spec (T / 647.096) / 647.096) T := by
  have h1 := hasDerivAt_barT T
  have hrw : (fun t => computeBarMu0Factor (t / 647.096)) = fun t =>
      1.67752 + 2.20462 / (t / 647.096) + 0.6366564 / (t / 647.096) ^ 2 +
        -0.241605 / (t / 647.096) ^ 3 := funext fun t => computeBarMu0Factor_eq _
  rw [hrw]
  have ht1 := (hasDerivAt_const T (2.20462 : ℝ)).div h1 hne
  have ht2 := (hasDerivAt_const T (0.6366564 : ℝ)).div (h1.pow 2) (pow_ne_zero 2 hne)
  have ht3 := (hasDerivAt_const T (-0.241605 : ℝ)).div (h1.pow 3) (pow_ne_zero 3 hne)
  have hsum := (((hasDerivAt_const T (1.67752 : ℝ)).add ht1).add ht2).add ht3
  convert hsum using 1
  have hT0 : T ≠ 0 := fun h => hne (by rw [h]; norm_num)
  rw [df0Spec, sum_Icc_one_three]
  simp [Hi, List.getD]
  norm_num
  field_simp [hT0]
  ring

/-- Derivative of the composed residual factor `t ↦ f1(t/647.096, ρ̄)` at
fixed reduced density. -/
lemma hasDerivAt_f1T (r T : ℝ) (hne : T / 647.096 ≠ 0) :
    HasDerivAt (fun t => f1Spec (t / 647.096) r)
      (df1dTSpec (T / 647.096) r / 647.096) T := by
  have h1 := hasDerivAt_barT T
  have hbase : HasDerivAt (fun t : ℝ => 1 / (t / 647.096) - 1)
      ((0 * (T / 647.096) - 1 * (1 / 647.096)) / (T / 647.096) ^ 2) T :=
    ((hasDerivAt_const T (1 : ℝ)).div h1 hne).sub_const 1
  have hsum := HasDerivAt.sum
    (fun i (_ : i ∈ Finset.range 6) => (hbase.pow i).mul_const (gRho i r))
  have hrw : (fun t => f1Spec (t / 647.096) r) = fun t =>
      ∑ i in Finset.range 6, (1 / (t / 647.096) - 1) ^ i * gRho i r :=
    funext fun t => rfl
  rw [hrw]
  convert hsum using 1
  rw [df1dTSpec, sum_Icc_one_five]
  simp [Finset.sum_range_succ]
  norm_num
  field_simp
  ring

/-- Derivative of the composed square root `t ↦ √(t/647.096)`. -/
lemma hasDerivAt_sqrtComp (T : ℝ) (hne : T / 647.096 ≠ 0) :
    HasDerivAt (fun t => Real.sqrt (t / 647.096))
      (1 / (2 * Real.sqrt (T / 647.096)) * (1 / 647.096)) T := by
  simpa [Function.comp] using (Real.hasDerivAt_sqrt hne).comp T (hasDerivAt_barT T)

/-- Claim C1 (amended): for T > 0, rho > 0 with `f0(T/647.096) ≠ 0`, the entry
point `getdValuedT T rho` is the derivative of `T ↦ getValue T rho`. -/
theorem getdValuedT_hasDerivAt (T rho : ℝ) (hT : 0 < T) (hrho : 0 < rho)
    (hf0 : computeBarMu0Factor (T / 647.096) ≠ 0) :
    HasDerivAt (fun t => getValue t rho) (getdValuedT T rho) T := by
  have hu : (0 : ℝ) < T / 647.096 := by positivity
  have hne : T / 647.096 ≠ 0 := hu.ne'
  have hEq : (fun t => getValue t rho) = fun t =>
      100 * Real.sqrt (t / 647.096) / computeBarMu0Factor (t / 647.096) *
        Real.exp (rho / 322.0 * f1Spec (t / 647.096) (rho / 322.0)) * 1e-6 := by
    funext t
    simp only [getValue, computeBarMu1Factor_eq]
  have hquot := ((hasDerivAt_sqrtComp T hne).const_mul (100 : ℝ)).div
    (hasDerivAt_F0comp T hne) hf0
  have hexp := ((hasDerivAt_f1T (rho / 322.0) T hne).const_mul (rho / 322.0)).exp
  have hmain := (hquot.mul hexp).mul_const (1e-6 : ℝ)
  rw [hEq]
  convert hmain using 1
  simp only [getdValuedT, computedBarMu_dbarT, computeBarMu1Factor_eq,
    df0_loop_eq, df1dT_loop_eq]
  have hs : Real.sqrt (T / 647.096) ≠ 0 := Real.sqrt_ne_zero'.mpr hu
  field_simp
  ring

/-- Witness for Claim C1 (amended) at T = 647.096, rho = 322. -/
theorem getdValuedT_hasDerivAt_witness :
    (0 : ℝ) < 647.096 ∧ (0 : ℝ) < 322 ∧
      computeBarMu0Factor (647.096 / 647.096) ≠ 0 ∧
      HasDerivAt (fun t => getValue t 322) (getdValuedT 647.096 322) 647.096 := by
  have hf0 : computeBarMu0Factor (647.096 / 647.096) ≠ 0 := by
    rw [show (647.096 : ℝ) / 647.096 = 1 by norm_num, computeBarMu0Factor_eq]
    norm_num
  exact ⟨by norm_num, by norm_num, hf0,
    getdValuedT_hasDerivAt 647.096 322 (by norm_num) (by norm_num) hf0⟩

/-- The cubic numerator of `f0(v)·v³`: `f0` vanishes exactly where this cubic
does, away from `v = 0`. -/
def dilutePoly : Polynomial ℝ :=
  Polynomial.C 1.67752 * Polynomial.X ^ 3 + Polynomial.C 2.20462 * Polynomial.X ^ 2 +
    Polynomial.C 0.6366564 * Polynomial.X + Polynomial.C (-0.241605)

lemma dilutePoly_eval (v : ℝ) :
    dilutePoly.eval v =
      1.67752 * v ^ 3 + 2.20462 * v ^ 2 + 0.6366564 * v - 0.241605 := by
  simp [dilutePoly]
  ring

lemma dilutePoly_ne_zero : dilutePoly ≠ 0 := by
  intro h
  have h0 : dilutePoly.eval 0 = 0 := by rw [h]; simp
  rw [dilutePoly_eval] at h0
  norm_num at h0

lemma computeBarMu0Factor_dilutePoly (v : ℝ) (hv : v ≠ 0) :
    computeBarMu0Factor v = dilutePoly.eval v / v ^ 3 := by
  rw [computeBarMu0Factor_eq, dilutePoly_eval]
  field_simp
  ring

/-- Claim C1 (counterexample): the unrestricted claim is false.  The dilute-gas
polynomial `f0` has a real zero at some reduced temperature `ξ ∈ [0.2, 0.25]`
(about 145 K); at `T = 647.096·ξ` the viscosity formula has a pole, the map
`T ↦ getValue T rho` is not even continuous there, so it cannot have
`getdValuedT T rho` as derivative. -/
theorem getdValuedT_claim_counterexample :
    ¬ ∀ T rho : ℝ, 0 < T → 0 < rho →
        HasDerivAt (fun t => getValue t rho) (getdValuedT T rho) T := by
  intro H
  have hcont : ContinuousOn (fun v => dilutePoly.eval v) (Set.Icc (0.2 : ℝ) 0.25) :=
    dilutePoly.continuous.continuousOn
  have hmem : (0 : ℝ) ∈ Set.Icc (dilutePoly.eval 0.2) (dilutePoly.eval 0.25) := by
    rw [dilutePoly_eval, dilutePoly_eval]
    constructor <;> norm_num
  obtain ⟨ξ, hξmem, hξ0⟩ :=
    intermediate_value_Icc (by norm_num : (0.2 : ℝ) ≤ 0.25) hcont hmem
  have hξpos : (0 : ℝ) < ξ := lt_of_lt_of_le (by norm_num) hξmem.1
  have hT₀ : 647.096 * ξ / 647.096 = ξ :=
    mul_div_cancel_left₀ ξ (by norm_num)
  have hT₀pos : (0 : ℝ) < 647.096 * ξ := by positivity
  have hξ0' : dilutePoly.eval ξ = 0 := hξ0
  have hF0ξ : computeBarMu0Factor ξ = 0 := by
    rw [computeBarMu0Factor_dilutePoly ξ hξpos.ne', hξ0', zero_div]
  have hgv : ContinuousAt (fun t => getValue t 322.0) (647.096 * ξ) :=
    (H (647.096 * ξ) 322.0 hT₀pos (by norm_num)).continuousAt
  have hne : 647.096 * ξ / 647.096 ≠ 0 := by rw [hT₀]; exact hξpos.ne'
  have hF0cont : ContinuousAt (fun t => computeBarMu0Factor (t / 647.096))
      (647.096 * ξ) := (hasDerivAt_F0comp _ hne).continuousAt
  have hφcont : ContinuousAt
      (fun t => getValue t 322.0 * computeBarMu0Factor (t / 647.096))
      (647.096 * ξ) := hgv.mul hF0cont
  have hψcont : ContinuousAt (fun t => 100 * Real.sqrt (t / 647.096) *
      Real.exp (322.0 / 322.0 * f1Spec (t / 647.096) (322.0 / 322.0)) * 1e-6)
      (647.096 * ξ) := by
    have h1 : ContinuousAt (fun t : ℝ => t / 647.096) (647.096 * ξ) :=
      continuousAt_id.div_const _
    have hf1 : ContinuousAt (fun t => f1Spec (t / 647.096) (322.0 / 322.0))
        (647.096 * ξ) := (hasDerivAt_f1T (322.0 / 322.0) _ hne).continuousAt
    exact ((continuousAt_const.mul h1.sqrt).mul
      ((continuousAt_const.mul hf1).rexp)).mul continuousAt_const
  have hroots : ({x : ℝ | dilutePoly.IsRoot x}).Finite :=
    Polynomial.finite_setOf_isRoot dilutePoly_ne_zero
  have hEfin : ({t : ℝ | dilutePoly.eval (t / 647.096) = 0}).Finite := by
    apply Set.Finite.subset (hroots.image (fun x => x * 647.096))
    intro t ht
    exact ⟨t / 647.096, ht, by field_simp⟩
  have hDfin : ({t : ℝ | dilutePoly.eval (t / 647.096) = 0} \
      {647.096 * ξ}).Finite := hEfin.diff _
  have hnotin : 647.096 * ξ ∈
      ({t : ℝ | dilutePoly.eval (t / 647.096) = 0} \ {647.096 * ξ})ᶜ := by
    simp
  have hevent : ∀ᶠ t in nhds (647.096 * ξ),
      t ∉ ({t : ℝ | dilutePoly.eval (t / 647.096) = 0} \ {647.096 * ξ}) := by
    have hopen := hDfin.isClosed.isOpen_compl.mem_nhds hnotin
    filter_upwards [hopen] with t ht
    exact ht
  have heq : ∀ᶠ t in nhdsWithin (647.096 * ξ) (Set.Ioi (647.096 * ξ)),
      getValue t 322.0 * computeBarMu0Factor (t / 647.096) =
      100 * Real.sqrt (t / 647.096) *
        Real.exp (322.0 / 322.0 * f1Spec (t / 647.096) (322.0 / 322.0)) * 1e-6 := by
    filter_upwards [hevent.filter_mono nhdsWithin_le_nhds,
      eventually_mem_nhdsWithin] with t hnot hmem'
    have htpos : (0 : ℝ) < t := lt_trans hT₀pos hmem'
    have htne : t / 647.096 ≠ 0 := (div_pos htpos (by norm_num)).ne'
    have hF0t : computeBarMu0Factor (t / 647.096) ≠ 0 := by
      intro h0
      apply hnot
      refine ⟨?_, fun hsing => ?_⟩
      · have hrel := computeBarMu0Factor_dilutePoly (t / 647.096) htne
        rw [h0] at hrel
        have := (div_eq_iff (pow_ne_zero 3 htne)).mp hrel.symm
        simpa using this
      · rw [Set.mem_singleton_iff] at hsing
        exact absurd hsing (ne_of_gt hmem')
    simp only [getValue, computeBarMu1Factor_eq]
    field_simp
    ring
  have hlim1 : Filter.Tendsto
      (fun t => getValue t 322.0 * computeBarMu0Factor (t / 647.096))
      (nhdsWithin (647.096 * ξ) (Set.Ioi (647.096 * ξ)))
      (nhds (getValue (647.096 * ξ) 322.0 *
        computeBarMu0Factor (647.096 * ξ / 647.096))) :=
    hφcont.tendsto.mono_left nhdsWithin_le_nhds
  have hlim2 : Filter.Tendsto (fun t => 100 * Real.sqrt (t / 647.096) *
      Real.exp (322.0 / 322.0 * f1Spec (t / 647.096) (322.0 / 322.0)) * 1e-6)
      (nhdsWithin (647.096 * ξ) (Set.Ioi (647.096 * ξ)))
      (nhds (100 * Real.sqrt (647.096 * ξ / 647.096) *
        Real.exp (322.0 / 322.0 *
          f1Spec (647.096 * ξ / 647.096) (322.0 / 322.0)) * 1e-6)) :=
    hψcont.tendsto.mono_left nhdsWithin_le_nhds
  have heq' : Filter.EventuallyEq
      (nhdsWithin (647.096 * ξ) (Set.Ioi (647.096 * ξ)))
      (fun t => getValue t 322.0 * computeBarMu0Factor (t / 647.096))
      (fun t => 100 * Real.sqrt (t / 647.096) *
        Real.exp (322.0 / 322.0 * f1Spec (t / 647.096) (322.0 / 322.0)) * 1e-6) :=
    heq
  have hlim3 := Filter.Tendsto.congr' heq'.symm hlim2
  have hune := tendsto_nhds_unique hlim1 hlim3
  rw [hT₀, hF0ξ, mul_zero] at hune
  have hψpos : 0 < 100 * Real.sqrt ξ *
      Real.exp (322.0 / 322.0 * f1Spec ξ (322.0 / 322.0)) * 1e-6 := by
    have hsq : 0 < Real.sqrt ξ := Real.sqrt_pos.2 hξpos
    positivity
  rw [hune] at hψpos
  exact lt_irrefl _ hψpos

/-- Witness for Claim C2 at T = 647.096, rho = 322. -/
theorem getdValuedRho_hasDerivAt_witness :
    (0 : ℝ) < 647.096 ∧ (0 : ℝ) < 322 ∧
      (HasDerivAt (fun r => getValue 647.096 r) (getdValuedRho 647.096 322) 322 ∧
        getdValuedRho 647.096 322 = dmudRhoSpec 647.096 322) :=
  ⟨by norm_num, by norm_num,
    getdValuedRho_hasDerivAt 647.096 322 (by norm_num) (by norm_num)⟩

end
